import Mathlib

set_option maxHeartbeats 1600000

/-!
Shallow embedding of `src/src/texture_grid_display.cpp` (octomap_rviz_plugins,
`TextureGridDisplay`), together with the parts of the octomap library the file
uses (`OcTreeKey`, `search`, the leaf iterator of `OcTreeBaseImpl`), which fix the
meaning of the calls made at lines 338, 355 and 365 of the source.

Conventions:
  * `unsigned short` grid coordinates are `Nat` values taken modulo 65536 at the
    points where the C++ arithmetic wraps.
  * `double`/`float` quantities are modelled as exact rationals (`ℚ`).
  * The octree (`octomap::TextureOcTree`) has the fixed native depth 16
    (`max_octree_depth_ = sizeof(unsigned short) * 8`, line 59).
-/

/-- Modulus of the 16-bit `unsigned short` key coordinates. -/
def U16 : Nat := 65536

/-- One face accumulator of a `TextureOcTreeNode`: `getFaceValue` and
`getFaceObservations` of the octomap texture extension. -/
structure TexFace where
  value : Nat
  obs : Nat
deriving DecidableEq, Repr

/-- `octomap::OcTreeKey`: three `unsigned short` grid coordinates. -/
structure OKey where
  x : Nat
  y : Nat
  z : Nat
deriving DecidableEq, Repr

/-- A node of the decoded `octomap::TextureOcTree`: the outcome of
`isNodeOccupied` for the node (octomap compares the node's stored log-odds
against the tree's fixed occupancy threshold; since neither changes inside the
modeled code, the comparison's boolean outcome is carried as node data), the
occupancy probability returned by `getOccupancy`, the six texture faces, and
eight optional children.  A node with no children is a leaf, as in octomap. -/
inductive TNode : Type where
  | mk (occ : Bool) (prob : ℚ) (faces : List TexFace)
       (c0 c1 c2 c3 c4 c5 c6 c7 : Option TNode) : TNode

/-- Occupancy bit of a node (see `isNodeOccupied`). -/
def TNode.occ : TNode → Bool
  | .mk o _ _ _ _ _ _ _ _ _ _ => o

/-- Occupancy probability of a node (`getOccupancy`). -/
def TNode.prob : TNode → ℚ
  | .mk _ p _ _ _ _ _ _ _ _ _ => p

/-- Texture faces of a node. -/
def TNode.faces : TNode → List TexFace
  | .mk _ _ f _ _ _ _ _ _ _ _ => f

/-- Child of a node at position `pos` (octomap child index, 0..7). -/
def TNode.child : TNode → Nat → Option TNode
  | .mk _ _ _ c0 _ _ _ _ _ _ _, 0 => c0
  | .mk _ _ _ _ c1 _ _ _ _ _ _, 1 => c1
  | .mk _ _ _ _ _ c2 _ _ _ _ _, 2 => c2
  | .mk _ _ _ _ _ _ c3 _ _ _ _, 3 => c3
  | .mk _ _ _ _ _ _ _ c4 _ _ _, 4 => c4
  | .mk _ _ _ _ _ _ _ _ c5 _ _, 5 => c5
  | .mk _ _ _ _ _ _ _ _ _ c6 _, 6 => c6
  | .mk _ _ _ _ _ _ _ _ _ _ c7, 7 => c7
  | _, _ => none

/-- `nodeHasChildren` of octomap: a node is inner iff some child exists. -/
def TNode.hasChildren (n : TNode) : Bool :=
  (n.child 0).isSome || (n.child 1).isSome || (n.child 2).isSome ||
  (n.child 3).isSome || (n.child 4).isSome || (n.child 5).isSome ||
  (n.child 6).isSome || (n.child 7).isSome

/-- The decoded tree handle: root pointer (may be null for an empty map),
`getResolution`, and the metric Z extent reported by
`getMetricMin`/`getMetricMax` (lines 323-325 of the source). -/
structure TTree where
  root : Option TNode
  resolution : ℚ
  minZ : ℚ
  maxZ : ℚ

/-- `computeChildIdx(key, depth)` of octomap: child position from bit `i` of
each coordinate (x contributes 1, y contributes 2, z contributes 4). -/
def computeChildIdx (key : OKey) (i : Nat) : Nat :=
  (key.x >>> i) % 2 + 2 * ((key.y >>> i) % 2) + 4 * ((key.z >>> i) % 2)

/-- Descent loop of `OcTreeBaseImpl::search`: `steps` more levels to descend,
the next level using bit `stop + steps - 1`.  A full-depth search from the
root is `searchSteps 16 0`; a search to depth `d` is `searchSteps d (16-d)`
(the low bits that `adjustKeyAtDepth` rewrites are never read by the loop).
If the wanted child is absent the loop returns the current node when it is a
leaf and fails when it is an inner node, exactly as in octomap. -/
def searchSteps : Nat → Nat → TNode → OKey → Option TNode
  | 0, _, node, _ => some node
  | steps + 1, stop, node, key =>
    match node.child (computeChildIdx key (stop + steps)) with
    | some c => searchSteps steps stop c key
    | none => if node.hasChildren then none else some node

/-- `octomap->search(key)` (single-argument form, line 365): full-depth search. -/
def TTree.search (t : TTree) (key : OKey) : Option TNode :=
  t.root.bind fun r => searchSteps 16 0 r key

/-- `search(key, depth)` of octomap: descend only `depth` levels.  Used here to
formalise the spec's description of a "same depth" neighbor lookup. -/
def TTree.searchAtDepth (t : TTree) (key : OKey) (depth : Nat) : Option TNode :=
  t.root.bind fun r => searchSteps depth (16 - depth) r key

/-- Center key of the root node (`tree_max_val = 32768` in each coordinate). -/
def rootKey : OKey := ⟨32768, 32768, 32768⟩

/-- `center_offset_key` for a child at depth `childDepth`:
`tree_max_val >> childDepth` (0 at the deepest level). -/
def halfAt (childDepth : Nat) : Nat := 32768 >>> childDepth

/-- One coordinate of `computeChildKey`: `parent + off` when the child bit is
set, else `parent - off - (off ? 0 : 1)`. -/
def childKeyCoord (parent : Nat) (bit : Nat) (off : Nat) : Nat :=
  if bit = 1 then parent + off else parent - off - (if off = 0 then 1 else 0)

/-- `computeChildKey(pos, center_offset_key, parent_key, child_key)` of octomap. -/
def computeChildKey (pos : Nat) (off : Nat) (parent : OKey) : OKey :=
  ⟨childKeyCoord parent.x (pos % 2) off,
   childKeyCoord parent.y (pos / 2 % 2) off,
   childKeyCoord parent.z (pos / 4 % 2) off⟩

/-- The leaf iterator `octomap->begin(maxD) .. octomap->end()` (line 338): the
list of `(center key, depth, node)` triples visited, i.e. every node that
either has no children or sits at the requested maximum depth.  Keys are the
center keys octomap maintains during traversal (`it.getKey()`).  `gas` is the
number of levels left before the depth cap, i.e. `maxD - depth`; the
traversal of a whole tree at cap `maxD` starts with `gas = maxD`,
`depth = 0`. -/
def leavesFrom : Nat → TNode → OKey → Nat → List (OKey × Nat × TNode)
  | 0, node, key, depth => [(key, depth, node)]
  | gas + 1, node, key, depth =>
    if node.hasChildren = false then [(key, depth, node)]
    else
      (List.range 8).flatMap fun pos =>
        match node.child pos with
        | none => []
        | some c =>
          leavesFrom gas c (computeChildKey pos (halfAt (depth + 1)) key) (depth + 1)

/-- Leaf traversal of a whole tree at maximum depth `maxD`; a requested depth
of 0 means the native tree depth, as in octomap's iterator constructor. -/
def treeLeaves (t : TTree) (maxD : Nat) : List (OKey × Nat × TNode) :=
  match t.root with
  | none => []
  | some r => leavesFrom (if maxD = 0 then 16 else maxD) r rootKey 0

/-- Replace one child of a node (construction helper for concrete test trees). -/
def TNode.setChild : TNode → Nat → Option TNode → TNode
  | .mk o p f _ c1 c2 c3 c4 c5 c6 c7, 0, c => .mk o p f c c1 c2 c3 c4 c5 c6 c7
  | .mk o p f c0 _ c2 c3 c4 c5 c6 c7, 1, c => .mk o p f c0 c c2 c3 c4 c5 c6 c7
  | .mk o p f c0 c1 _ c3 c4 c5 c6 c7, 2, c => .mk o p f c0 c1 c c3 c4 c5 c6 c7
  | .mk o p f c0 c1 c2 _ c4 c5 c6 c7, 3, c => .mk o p f c0 c1 c2 c c4 c5 c6 c7
  | .mk o p f c0 c1 c2 c3 _ c5 c6 c7, 4, c => .mk o p f c0 c1 c2 c3 c c5 c6 c7
  | .mk o p f c0 c1 c2 c3 c4 _ c6 c7, 5, c => .mk o p f c0 c1 c2 c3 c4 c c6 c7
  | .mk o p f c0 c1 c2 c3 c4 c5 _ c7, 6, c => .mk o p f c0 c1 c2 c3 c4 c5 c c7
  | .mk o p f c0 c1 c2 c3 c4 c5 c6 _, 7, c => .mk o p f c0 c1 c2 c3 c4 c5 c6 c
  | n, _, _ => n

/-- An unoccupied childless node (construction helper). -/
def emptyN : TNode := .mk false 0 [] none none none none none none none none

/-- Insert a node `steps` levels below `cur`, following the bits of `key` from
bit `stop + steps - 1` down to bit `stop` (construction helper for concrete
test trees; path nodes are created as unoccupied inner nodes).  Inserting at
depth `d` below the root uses `insertPath d (16 - d)`. -/
def insertPath : Nat → Nat → TNode → OKey → TNode → TNode
  | 0, _, _, _, nd => nd
  | steps + 1, stop, cur, key, nd =>
    let pos := computeChildIdx key (stop + steps)
    let sub := match cur.child pos with
      | some c => c
      | none => emptyN
    cur.setChild pos (some (insertPath steps stop sub key nd))

/-! ## Visibility filter (lines 341-382 of the source) -/

/-- `octomap->isNodeOccupied(n)`: the node's log-odds value above the tree's
occupancy threshold; the outcome is carried as the node's `occ` field. -/
def isNodeOccupied (n : TNode) : Bool := n.occ

/-- `(int)octomap->isNodeOccupied(n) + 1`: evaluates to 1 for free voxels and
2 for occupied voxels (comment at lines 348 and 367). -/
def occInt (n : TNode) : Nat := (if isNodeOccupied n then 1 else 0) + 1

/-- The neighbor test of lines 365-372 for one probed key: the result of
`node && (((int)octomap->isNodeOccupied(node)) + 1) & render_mode_mask`,
i.e. a node exists at the key (full-depth search) and matches the mask. -/
def probeMatch (t : TTree) (mask : Nat) (key : OKey) : Bool :=
  match t.search key with
  | none => false
  | some nd => decide (occInt nd &&& mask ≠ 0)

/-- Body of the innermost neighbor loop for the cell `(kx, ky, kz)`: the cell
equal to `nKey` is skipped (line 363), any other cell must pass `probeMatch`
or `allNeighborsFound` becomes false. -/
def neighborOk (t : TTree) (mask : Nat) (nKey : OKey) (kx ky kz : Nat) : Bool :=
  if (OKey.mk kx ky kz) = nKey then true else probeMatch t mask ⟨kx, ky, kz⟩

/-- The `key[0]` loop (line 361): `key[0]` starts at `nKey[0] - 1` in wrapping
16-bit arithmetic and the loop runs while `key[0] <= nKey[0] + 1` (compared
after integer promotion, hence without wrapping) and `allNeighborsFound`
still holds.  `none` means the loop did not terminate within `fuel`
iterations; `some b` is the value of `allNeighborsFound` on exit. -/
def neighborLoopX (t : TTree) (mask : Nat) (nKey : OKey) (kz ky : Nat) :
    Nat → Nat → Option Bool
  | 0, _ => none
  | fuel + 1, kx =>
    if kx ≤ nKey.x + 1 then
      if neighborOk t mask nKey kx ky kz then
        neighborLoopX t mask nKey kz ky fuel ((kx + 1) % U16)
      else some false
    else some true

/-- The `key[1]` loop (line 359); each iteration re-runs the full `key[0]`
loop starting at `nKey[0] - 1` with fuel budget `xf`. -/
def neighborLoopY (t : TTree) (mask : Nat) (nKey : OKey) (kz xf : Nat) :
    Nat → Nat → Option Bool
  | 0, _ => none
  | fuel + 1, ky =>
    if ky ≤ nKey.y + 1 then
      match neighborLoopX t mask nKey kz ky xf ((nKey.x + U16 - 1) % U16) with
      | some true => neighborLoopY t mask nKey kz xf fuel ((ky + 1) % U16)
      | some false => some false
      | none => none
    else some true

/-- The `key[2]` loop (line 357). -/
def neighborLoopZ (t : TTree) (mask : Nat) (nKey : OKey) (xf yf : Nat) :
    Nat → Nat → Option Bool
  | 0, _ => none
  | fuel + 1, kz =>
    if kz ≤ nKey.z + 1 then
      match neighborLoopY t mask nKey kz xf yf ((nKey.y + U16 - 1) % U16) with
      | some true => neighborLoopZ t mask nKey xf yf fuel ((kz + 1) % U16)
      | some false => some false
      | none => none
    else some true

/-- Value of `allNeighborsFound` after the triple loop of lines 357-376;
`none` when the C++ loop fails to terminate (possible when a coordinate of
`nKey` is 65534 or 65535, where the loop bound `nKey + 1` computed in `int`
is never exceeded by a 16-bit `key` value).  Each loop is given fuel
`U16 + 2`: a loop that runs `U16 + 2` iterations without exiting has visited
some 16-bit start value twice with `allNeighborsFound` still true, so it
never terminates. -/
def allNeighborsFnd (t : TTree) (mask : Nat) (nKey : OKey) : Option Bool :=
  neighborLoopZ t mask nKey (U16 + 2) (U16 + 2) (U16 + 2) ((nKey.z + U16 - 1) % U16)

/-- `display_voxel` for one traversed voxel (lines 346-379): false unless the
voxel's own state matches `render_mode_mask` (line 349), in which case it is
the negation of `allNeighborsFound` (line 378). -/
def displayVoxel (t : TTree) (mask : Nat) (nKey : OKey) (nd : TNode) : Option Bool :=
  if occInt nd &&& mask ≠ 0 then (allNeighborsFnd t mask nKey).map (fun b => !b)
  else some false

/-- The 3 probes of one x-row of the neighbor stencil, at `key[0]` values
`nKey.x - 1`, `nKey.x`, `nKey.x + 1`. -/
def probesRow (t : TTree) (mask : Nat) (nKey : OKey) (ky kz : Nat) : Bool :=
  neighborOk t mask nKey (nKey.x - 1) ky kz &&
  (neighborOk t mask nKey nKey.x ky kz && neighborOk t mask nKey (nKey.x + 1) ky kz)

/-- The 9 probes of one z-plane of the neighbor stencil. -/
def probesPlane (t : TTree) (mask : Nat) (nKey : OKey) (kz : Nat) : Bool :=
  probesRow t mask nKey (nKey.y - 1) kz &&
  (probesRow t mask nKey nKey.y kz && probesRow t mask nKey (nKey.y + 1) kz)

/-- All 26 neighbor probes of the stencil (the center cell is skipped by
`neighborOk`): the conjunction the C++ loops compute when every coordinate of
`nKey` lies in `[1, 65533]`, so that each loop runs its three iterations. -/
def probesAll (t : TTree) (mask : Nat) (nKey : OKey) : Bool :=
  probesPlane t mask nKey (nKey.z - 1) &&
  (probesPlane t mask nKey nKey.z && probesPlane t mask nKey (nKey.z + 1))

/-- Visibility test as the spec describes it for claim C2: the 26 neighbor
lookups performed at the same depth `d` as the voxel under test, each neighbor
being the adjacent cell of edge `2^(16-d)` fine cells, looked up with
`search(key, d)`; a missing or mask-failing neighbor forces visibility. -/
def sameDepthNeighborOk (t : TTree) (mask : Nat) (nKey : OKey) (d : Nat)
    (dx dy dz : Nat) : Bool :=
  if dx = 1 ∧ dy = 1 ∧ dz = 1 then true
  else
    let w := 2 * halfAt d
    let k : OKey := ⟨nKey.x + dx * w - w, nKey.y + dy * w - w, nKey.z + dz * w - w⟩
    match t.searchAtDepth k d with
    | none => false
    | some nd => decide (occInt nd &&& mask ≠ 0)

/-- Spec-side visibility decision for a voxel at depth `d` that matches the
render-mode mask and is not at the maximum traversal depth:
visible iff some same-depth neighbor is absent or fails the mask. -/
def displayVoxelSpecSameDepth (t : TTree) (mask : Nat) (nKey : OKey) (d : Nat) : Bool :=
  !((List.range 3).all fun dz => (List.range 3).all fun dy => (List.range 3).all fun dx =>
      sameDepthNeighborOk t mask nKey d dx dy dz)

/-! ## Color model (lines 227-279 and 390-419 of the source) -/

/-- The `switch (i)` of `setColor` (lines 247-271): cases 6 and 0 coincide and
the `default` branch paints the fixed color `(1, 0.5, 0.5)`. -/
def hueSelect (i : ℤ) (v n m : ℚ) : ℚ × ℚ × ℚ :=
  if i = 6 ∨ i = 0 then (v, n, m)
  else if i = 1 then (n, v, m)
  else if i = 2 then (m, v, n)
  else if i = 3 then (m, n, v)
  else if i = 4 then (n, m, v)
  else if i = 5 then (v, m, n)
  else (1, 1/2, 1/2)

/-- `TextureGridDisplay::setColor` (lines 227-272), the height (Z-axis) color
map, over exact rationals.  `!(i & 1)` is evaluated as `i % 2 = 0`, which
agrees with the two's-complement bit test for every integer.  (In ℚ a
division by zero yields 0 where IEEE doubles would give a NaN; the min/max
clamp makes the two agree whenever `minZ ≠ maxZ`.) -/
def setColor (zPos minZ maxZ colorFactor : ℚ) : ℚ × ℚ × ℚ :=
  let s : ℚ := 1
  let v : ℚ := 1
  let h0 := (1 - min (max ((zPos - minZ) / (maxZ - minZ)) 0) 1) * colorFactor
  let h1 := h0 - ⌊h0⌋
  let h := h1 * 6
  let i : ℤ := ⌊h⌋
  let f0 := h - i
  let f := if i % 2 = 0 then 1 - f0 else f0
  let m := v * (1 - s)
  let n := v * (1 - s * f)
  hueSelect i v n m

/-- `TextureGridDisplay::setIntensity` (lines 274-279): clamp to [0,1] and
paint a gray triple. -/
def setIntensity (intensity : ℚ) : ℚ × ℚ × ℚ :=
  let i := max 0 (min 1 intensity)
  (i, i, i)

/-- `it->getFaceValue((octomap::FaceEnum) i)`. -/
def faceValue (n : TNode) (i : Nat) : Nat := (n.faces.getD i ⟨0, 0⟩).value

/-- `it->getFaceObservations((octomap::FaceEnum) i)`. -/
def faceObs (n : TNode) (i : Nat) : Nat := (n.faces.getD i ⟨0, 0⟩).obs

/-- The accumulation loop of lines 399-402.  `cell_texture` is declared at
line 391 WITHOUT an initializer and only ever added to, so its start value is
indeterminate; it is exposed here as the parameter `accInit`.  `obs` starts
at 0 (line 392). -/
def texAccum (n : TNode) (accInit : ℚ) : ℚ × Nat :=
  (List.range 6).foldl
    (fun p i => (p.1 + (faceValue n i : ℚ) * (faceObs n i : ℚ), p.2 + faceObs n i))
    (accInit, 0)

/-- `cell_texture` after lines 403-406: forced to 0 when `obs < 1`, otherwise
divided by `obs * 255.0`. -/
def cellTexture (n : TNode) (accInit : ℚ) : ℚ :=
  let a := texAccum n accInit
  if a.2 < 1 then 0 else a.1 / ((a.2 : ℚ) * 255)

/-- Texture intensity as the spec states it (claim C8): the per-face values
weighted by their observation counts, normalized by `observations * 255`, and
exactly 0 when no face was ever observed. -/
def specTexIntensity (n : TNode) : ℚ :=
  let obs := (List.range 6).foldl (fun a i => a + faceObs n i) 0
  if obs = 0 then 0
  else ((List.range 6).foldl (fun a i => a + (faceValue n i : ℚ) * (faceObs n i : ℚ)) 0)
    / ((obs : ℚ) * 255)

/-! ## Buckets, double buffer and the display state machine -/

/-- One point handed to `rviz::PointCloud` (metric position and RGB color). -/
structure RPoint where
  px : ℚ
  py : ℚ
  pz : ℚ
  r : ℚ
  g : ℚ
  b : ℚ
deriving DecidableEq, Repr

/-- `getNodeSize(depth)` of octomap: `resolution * 2^(16 - depth)`. -/
def getNodeSize (res : ℚ) (depth : Nat) : ℚ := res * 2 ^ (16 - depth)

/-- `keyToCoord(key, depth)` of octomap, used by `it.getX()/getY()/getZ()`:
the metric center of the voxel. -/
def keyToCoord (res : ℚ) (k : Nat) (depth : Nat) : ℚ :=
  if depth = 0 then 0
  else if depth = 16 then ((k : ℚ) - 32768 + 1/2) * res
  else ((Int.fdiv ((k : ℤ) - 32768) (2 ^ (16 - depth)) : ℚ) + 1/2) * getNodeSize res depth

/-- `OCTOMAP_TEXTURE_COLOR`, `OCTOMAP_Z_AXIS_COLOR`, `OCTOMAP_PROBABLILTY_COLOR`
(lines 67-72). -/
inductive ColorMode where
  | texture
  | zaxis
  | probability
deriving DecidableEq, Repr

/-- The property values the callback reads: `octree_render_property_`
(render-mode mask), `octree_coloring_property_`, `tree_depth_property_` and
`color_factor_`. -/
structure Config where
  mask : Nat
  colorMode : ColorMode
  depthProp : Nat
  colorFactor : ℚ
deriving Repr

/-- The point built at lines 384-419 for one displayed voxel. -/
def mkPoint (cfg : Config) (accInit : ℚ) (t : TTree) (key : OKey) (depth : Nat)
    (nd : TNode) : RPoint :=
  let x := keyToCoord t.resolution key.x depth
  let y := keyToCoord t.resolution key.y depth
  let z := keyToCoord t.resolution key.z depth
  let c : ℚ × ℚ × ℚ :=
    match cfg.colorMode with
    | .texture => setIntensity (cellTexture nd accInit)
    | .zaxis => setColor z t.minZ t.maxZ cfg.colorFactor
    | .probability => (1 - nd.prob, nd.prob, 0)
  ⟨x, y, z, c.1, c.2.1, c.2.2⟩

/-- `point_buf_[depth - 1].push_back(newPoint)` (line 423). -/
def bucketsPush (bs : List (List RPoint)) (i : Nat) (p : RPoint) :
    List (List RPoint) :=
  bs.set i (bs.getD i [] ++ [p])

/-- `std::min<unsigned int>(tree_depth_property_->getInt(), octomap->getTreeDepth())`
(line 337). -/
def effDepth (cfg : Config) : Nat := min cfg.depthProp 16

/-- The traversal loop of lines 338-428: visit every leaf up to the effective
depth, test occupancy and visibility, and push a point for each displayed
voxel into the bucket of its depth.  The result is `none` when the C++ run is
undefined: a neighbor loop that does not terminate, or a displayed voxel at
depth 0 (where `point_buf_[depth - 1]` indexes with `(unsigned)-1`). -/
def fillBuckets (cfg : Config) (accInit : ℚ) (t : TTree) :
    Option (List (List RPoint)) :=
  (treeLeaves t (effDepth cfg)).foldl
    (fun acc e =>
      acc.bind fun bs =>
        if isNodeOccupied e.2.2 then
          match displayVoxel t cfg.mask e.1 e.2.2 with
          | none => none
          | some true =>
            if e.2.1 = 0 then none
            else some (bucketsPush bs (e.2.1 - 1) (mkPoint cfg accInit t e.1 e.2.1 e.2.2))
          | some false => some bs
        else some bs)
    (some (List.replicate 16 []))

/-- `pointCount` at line 431 equals the total number of points pushed. -/
def bucketsCount (bs : List (List RPoint)) : Nat := (bs.map List.length).sum

/-- A `setStatus` level (`rviz::StatusProperty::Ok` / `Error`). -/
inductive StatusLevel where
  | ok
  | error
deriving DecidableEq, Repr

/-- The state a `TextureGridDisplay` instance owns that the callbacks mutate:
the dirty flag `new_points_received_`, the message counter, `box_size_`, the
per-level `rviz::PointCloud` contents and dimensions, `point_buf_` and
`new_points_` (all of size `max_octree_depth_ = 16` after `onInitialize`). -/
structure DState where
  newPointsReceived : Bool
  messagesReceived : Nat
  boxSize : List ℚ
  clouds : List (List RPoint)
  cloudDims : List ℚ
  pointBuf : List (List RPoint)
  newPoints : List (List RPoint)
deriving DecidableEq, Repr

/-- The state right after `onInitialize` (lines 125-143). -/
def initState : DState :=
  ⟨false, 0, List.replicate 16 0, List.replicate 16 [], List.replicate 16 0,
   List.replicate 16 [], List.replicate 16 []⟩

/-- An incoming `octomap_msgs::Octomap` message, after the two external steps
the callback performs on it: `transformOK` is the outcome of
`getTransform` (line 292) and `decoded` the combined outcome of
`octomap_msgs::msgToMap` plus the `dynamic_cast` to `TextureOcTree*`
(lines 305-310); `none` covers both a null tree and a failed cast. -/
structure Msg where
  transformOK : Bool
  decoded : Option TTree

namespace TextureGridDisplay

/-- `TextureGridDisplay::incomingMessageCallback` (lines 281-442), restricted
to the state it mutates and the statuses it reports.  Returns `none` when the
C++ run is undefined (see `fillBuckets`).  On the success path, the publish
block of lines 431-440 swaps `new_points_` with `point_buf_` and raises the
dirty flag only when `pointCount` is nonzero. -/
def incomingMessageCallback (st : DState) (cfg : Config) (accInit : ℚ)
    (msg : Msg) : Option (DState × List (StatusLevel × String)) :=
  let st1 := { st with messagesReceived := st.messagesReceived + 1 }
  let okSt : StatusLevel × String := (.ok, "Messages")
  if msg.transformOK = false then
    some (st1, [okSt, (.error, "Message")])
  else
    match msg.decoded with
    | none => some (st1, [okSt, (.error, "Message")])
    | some tree =>
      let st2 := { st1 with
        pointBuf := List.replicate 16 [],
        boxSize := (List.range 16).map fun i => getNodeSize tree.resolution (i + 1) }
      match fillBuckets cfg accInit tree with
      | none => none
      | some buckets =>
        if bucketsCount buckets ≠ 0 then
          some ({ st2 with
            newPointsReceived := true,
            newPoints := buckets,
            pointBuf := st1.newPoints }, [okSt])
        else some ({ st2 with pointBuf := buckets }, [okSt])

/-- The body of the drain loop of `update` for level `i` (lines 474-484):
clear the cloud, set its dimensions from `box_size_[i]`, then call
`addPoints(&new_points_[i].front(), new_points_[i].size())` and clear
`new_points_[i]`.  Calling `front()` on an empty `std::vector` is undefined
behaviour, modelled as `Except.error ()`. -/
def updateLevel (s : DState) (i : Nat) : Except Unit DState :=
  let size := s.boxSize.getD i 0
  let s1 := { s with clouds := s.clouds.set i [], cloudDims := s.cloudDims.set i size }
  let pts := s1.newPoints.getD i []
  if pts.isEmpty then .error ()
  else .ok { s1 with clouds := s1.clouds.set i pts, newPoints := s1.newPoints.set i [] }

/-- `TextureGridDisplay::update` (lines 468-487): when the dirty flag is set,
drain every level bucket into its cloud and clear the flag. -/
def update (st : DState) : Except Unit DState :=
  if st.newPointsReceived then
    ((List.range 16).foldlM updateLevel st).map
      fun s => { s with newPointsReceived := false }
  else .ok st

/-- `TextureGridDisplay::clear` (lines 456-466): clear every
`rviz::PointCloud`; nothing else is touched. -/
def clear (st : DState) : DState :=
  { st with clouds := st.clouds.map fun _ => [] }

/-- `TextureGridDisplay::reset` (lines 489-494): `clear()` plus resetting the
message counter (and an `Ok` status not modelled in the state). -/
def reset (st : DState) : DState :=
  { clear st with messagesReceived := 0 }

end TextureGridDisplay

/-! ## Geometry of octomap center keys

`leavesFrom` hands every visited node its center key.  A node at depth `d`
covers, per axis, the half-open interval of fine grid cells
`[c - halfAt d, c + halfAt d)` around its center coordinate `c` (a single
cell at depth 16); `centerAx` is the shape invariant of a center coordinate
(`c ≡ halfAt d  (mod 2 * halfAt d)`), which `computeChildKey` preserves.
These facts identify which node a full-depth `search` reaches for any key
inside a traversed leaf's span. -/

/-- Shape invariant of one coordinate of an octomap center key at depth `d`. -/
def centerAx (c : Nat) (d : Nat) : Prop :=
  c < U16 ∧ (d < 16 → c % (2 * halfAt d) = halfAt d)

/-- Shape invariant of a center key at depth `d`. -/
def centerOK (k : OKey) (d : Nat) : Prop :=
  centerAx k.x d ∧ centerAx k.y d ∧ centerAx k.z d

/-- One coordinate `v` lies in the span of the depth-`d` node centered at `c`. -/
def inSpanAx (v c : Nat) (d : Nat) : Prop :=
  if d < 16 then c - halfAt d ≤ v ∧ v < c + halfAt d else v = c

/-- A key `v` lies in the cube covered by the depth-`d` node centered at `kc`. -/
def inSpanK (v kc : OKey) (d : Nat) : Prop :=
  inSpanAx v.x kc.x d ∧ inSpanAx v.y kc.y d ∧ inSpanAx v.z kc.z d

/-! ## Concrete instances used by the counterexamples and witnesses -/

/-- An occupied childless node (probability 1, no texture observations). -/
def occLeaf : TNode := .mk true 1 [] none none none none none none none none

/-- The 27 finest-resolution keys of a 3x3x3 block centered at (100,100,100). -/
def keys27 : List OKey :=
  (List.range 3).flatMap fun a => (List.range 3).flatMap fun b => (List.range 3).map fun c =>
    OKey.mk (99 + a) (99 + b) (99 + c)

/-- Root of a solid 3x3x3 block of occupied depth-16 voxels. -/
def rBlock : TNode := keys27.foldl (fun r k => insertPath 16 0 r k occLeaf) emptyN

/-- A decoded tree holding a solid 3x3x3 block of occupied depth-16 voxels. -/
def tBlock : TTree := ⟨some rBlock, 1/20, 0, 10⟩

/-- Center voxel of the block: occupied, at the tree's maximum depth 16, with
all 26 neighbors present and occupied. -/
def kCenter : OKey := ⟨100, 100, 100⟩

/-- The leaf traversal of `tBlock` at depth cap 16, listed explicitly. -/
def leavesBlock : List (OKey × Nat × TNode) :=
  [(⟨99, 99, 99⟩, 16, occLeaf),
   (⟨100, 99, 99⟩, 16, occLeaf),
   (⟨101, 99, 99⟩, 16, occLeaf),
   (⟨99, 100, 99⟩, 16, occLeaf),
   (⟨99, 101, 99⟩, 16, occLeaf),
   (⟨100, 100, 99⟩, 16, occLeaf),
   (⟨101, 100, 99⟩, 16, occLeaf),
   (⟨100, 101, 99⟩, 16, occLeaf),
   (⟨101, 101, 99⟩, 16, occLeaf),
   (⟨99, 99, 100⟩, 16, occLeaf),
   (⟨99, 99, 101⟩, 16, occLeaf),
   (⟨100, 99, 100⟩, 16, occLeaf),
   (⟨101, 99, 100⟩, 16, occLeaf),
   (⟨100, 99, 101⟩, 16, occLeaf),
   (⟨101, 99, 101⟩, 16, occLeaf),
   (⟨99, 100, 100⟩, 16, occLeaf),
   (⟨99, 101, 100⟩, 16, occLeaf),
   (⟨99, 100, 101⟩, 16, occLeaf),
   (⟨99, 101, 101⟩, 16, occLeaf),
   (⟨100, 100, 100⟩, 16, occLeaf),
   (⟨101, 100, 100⟩, 16, occLeaf),
   (⟨100, 101, 100⟩, 16, occLeaf),
   (⟨101, 101, 100⟩, 16, occLeaf),
   (⟨100, 100, 101⟩, 16, occLeaf),
   (⟨101, 100, 101⟩, 16, occLeaf),
   (⟨100, 101, 101⟩, 16, occLeaf),
   (⟨101, 101, 101⟩, 16, occLeaf)]

/-- Center key of a single coarse occupied leaf at depth 14 (cells 100..103 on
each axis; the center coordinate is 102). -/
def kCoarse : OKey := ⟨102, 102, 102⟩

/-- Root of a tree whose only leaf is the coarse occupied voxel at depth 14. -/
def rCoarse : TNode := insertPath 14 2 emptyN kCoarse occLeaf

/-- A decoded tree holding exactly one coarse occupied voxel at depth 14,
with no neighbor at all. -/
def tCoarse : TTree := ⟨some rCoarse, 1/20, 0, 10⟩

/-- A finest-depth occupied voxel on the x = 0 boundary of the grid. -/
def kEdge : OKey := ⟨0, 100, 100⟩

/-- A decoded tree holding only the boundary voxel `kEdge`. -/
def tEdge : TTree := ⟨some (insertPath 16 0 emptyN kEdge occLeaf), 1/20, 0, 10⟩

/-- `tEdge` plus occupied voxels at all nine wrapped-around keys
`(65535, 99..101, 99..101)` that a `0 - 1` offset in 16-bit arithmetic would
name. -/
def tEdgeFull : TTree :=
  ⟨some (((List.range 3).flatMap fun b => (List.range 3).map fun c =>
      OKey.mk 65535 (99 + b) (99 + c)).foldl
        (fun r k => insertPath 16 0 r k occLeaf)
        (insertPath 16 0 emptyN kEdge occLeaf)), 1/20, 0, 10⟩

/-- A decoded tree whose root is a single unoccupied leaf: a successfully
decoded map that yields no visible point. -/
def tFree : TTree := ⟨some emptyN, 1, 0, 10⟩

/-- A decoded tree holding exactly one isolated occupied voxel at depth 16
(the end-to-end example of the spec, with resolution 1). -/
def tOne : TTree := ⟨some (insertPath 16 0 emptyN ⟨100, 100, 100⟩ occLeaf), 1, 0, 10⟩

/-- Render configuration: occupied voxels, probability coloring, full depth. -/
def cfgProb : Config := ⟨2, .probability, 16, 4/5⟩

/-- A sample render point. -/
def ptX : RPoint := ⟨0, 0, 0, 0, 1, 0⟩

/-! ## Claims C4, C6, C7, C8 -/

/-- A dirty published buffer with one point at level 9 and every other level
bucket empty: the ordinary outcome of a pass whose visible voxels all sit at
one depth. -/
def stHole : DState :=
  { initState with
    newPointsReceived := true,
    newPoints := (List.replicate 16 ([] : List RPoint)).set 9 [ptX] }

/-- A dirty published buffer with a point in every level bucket. -/
def stFull : DState :=
  { initState with
    newPointsReceived := true,
    newPoints := List.replicate 16 [ptX] }

/-- A node with one observed face (value 1, one observation) and five
unobserved faces. -/
def texNode : TNode :=
  .mk true 1 [⟨1, 1⟩, ⟨0, 0⟩, ⟨0, 0⟩, ⟨0, 0⟩, ⟨0, 0⟩, ⟨0, 0⟩]
    none none none none none none none none

/-- A node whose six faces carry values but zero observations. -/
def zeroObsNode : TNode :=
  .mk true 1 [⟨7, 0⟩, ⟨7, 0⟩, ⟨7, 0⟩, ⟨7, 0⟩, ⟨7, 0⟩, ⟨7, 0⟩]
    none none none none none none none none

/-- A clean state whose pending published buffer still holds a point at level
9 from an earlier pass, with the dirty flag already consumed. -/
def stPend : DState :=
  { initState with newPoints := (List.replicate 16 ([] : List RPoint)).set 9 [ptX] }

/-- The bucket set of the one-voxel pass over `tOne`: a single point at level
16 - 1 = 15. -/
def bucketsOne : List (List RPoint) :=
  (List.replicate 16 ([] : List RPoint)).set 15
    [mkPoint cfgProb 0 tOne ⟨100, 100, 100⟩ 16 occLeaf]

/-! ## Claim C9 -/

/-- The tail of `setColor` after the clamped, scaled height has been computed:
lines 238-271 as a function of the pre-wrap hue `h0`. -/
def hueCore (h0 : ℚ) : ℚ × ℚ × ℚ :=
  let h1 := h0 - ⌊h0⌋
  let h := h1 * 6
  let i : ℤ := ⌊h⌋
  let f0 := h - i
  let f := if i % 2 = 0 then 1 - f0 else f0
  let m := (1 : ℚ) * (1 - 1)
  let n := (1 : ℚ) * (1 - 1 * f)
  hueSelect i 1 n m

/-! ## Characterization of the neighbor loops

With every coordinate of `nKey` in `[1, 65533]` each of the three `for` loops
of lines 357-376 starts at `coordinate - 1` (no wrap-around is observable) and
exits after its three iterations, so `allNeighborsFound` is the conjunction of
the 26 probes `probesAll`.  With a coordinate equal to 0 the wrapped start
value 65535 fails the loop bound immediately and the corresponding loop body
never runs. -/

theorem neighborLoopX_run3 (t : TTree) (mask : Nat) (nKey : OKey) (kz ky : Nat)
    (hx1 : 1 ≤ nKey.x) (hx2 : nKey.x ≤ 65533) (fuel : Nat) (hf : 4 ≤ fuel) :
    neighborLoopX t mask nKey kz ky fuel ((nKey.x + U16 - 1) % U16) =
      some (probesRow t mask nKey ky kz) := by
  obtain ⟨f, rfl⟩ : ∃ f, fuel = f + 4 := ⟨fuel - 4, by omega⟩
  have e1 : (nKey.x + U16 - 1) % U16 = nKey.x - 1 := by simp only [U16]; omega
  have e2 : (nKey.x - 1 + 1) % U16 = nKey.x := by simp only [U16]; omega
  have e3 : (nKey.x + 1) % U16 = nKey.x + 1 := by simp only [U16]; omega
  rw [e1, show f + 4 = (f + 3) + 1 from rfl, neighborLoopX,
    if_pos (by omega : nKey.x - 1 ≤ nKey.x + 1)]
  simp only [probesRow]
  cases h1 : neighborOk t mask nKey (nKey.x - 1) ky kz
  · simp [h1]
  · rw [if_pos rfl, e2, show f + 3 = (f + 2) + 1 from rfl, neighborLoopX,
      if_pos (by omega : nKey.x ≤ nKey.x + 1)]
    simp only [Bool.true_and]
    cases h2 : neighborOk t mask nKey nKey.x ky kz
    · simp [h2]
    · rw [if_pos rfl, e3, show f + 2 = (f + 1) + 1 from rfl, neighborLoopX,
        if_pos (le_refl (nKey.x + 1))]
      simp only [Bool.true_and]
      cases h3 : neighborOk t mask nKey (nKey.x + 1) ky kz
      · simp [h3]
      · rw [if_pos rfl,
          show (nKey.x + 1 + 1) % U16 = nKey.x + 2 by simp only [U16]; omega,
          neighborLoopX, if_neg (by omega : ¬ nKey.x + 2 ≤ nKey.x + 1)]

theorem neighborLoopX_zero (t : TTree) (mask : Nat) (nKey : OKey) (kz ky : Nat)
    (hx : nKey.x = 0) (fuel : Nat) (hf : 1 ≤ fuel) :
    neighborLoopX t mask nKey kz ky fuel ((nKey.x + U16 - 1) % U16) = some true := by
  obtain ⟨f, rfl⟩ : ∃ f, fuel = f + 1 := ⟨fuel - 1, by omega⟩
  have e1 : (nKey.x + U16 - 1) % U16 = 65535 := by simp only [U16]; omega
  rw [e1, neighborLoopX, if_neg (by omega : ¬ (65535 : Nat) ≤ nKey.x + 1)]

theorem neighborLoopY_run3 (t : TTree) (mask : Nat) (nKey : OKey) (kz xf : Nat)
    (rx : Nat → Bool)
    (hX : ∀ ky, neighborLoopX t mask nKey kz ky xf ((nKey.x + U16 - 1) % U16) =
      some (rx ky))
    (hy1 : 1 ≤ nKey.y) (hy2 : nKey.y ≤ 65533) (fuel : Nat) (hf : 4 ≤ fuel) :
    neighborLoopY t mask nKey kz xf fuel ((nKey.y + U16 - 1) % U16) =
      some (rx (nKey.y - 1) && (rx nKey.y && rx (nKey.y + 1))) := by
  obtain ⟨f, rfl⟩ : ∃ f, fuel = f + 4 := ⟨fuel - 4, by omega⟩
  have e1 : (nKey.y + U16 - 1) % U16 = nKey.y - 1 := by simp only [U16]; omega
  have e2 : (nKey.y - 1 + 1) % U16 = nKey.y := by simp only [U16]; omega
  have e3 : (nKey.y + 1) % U16 = nKey.y + 1 := by simp only [U16]; omega
  rw [e1, show f + 4 = (f + 3) + 1 from rfl, neighborLoopY,
    if_pos (by omega : nKey.y - 1 ≤ nKey.y + 1), hX (nKey.y - 1)]
  cases h1 : rx (nKey.y - 1)
  · simp
  · simp only [Bool.true_and]
    rw [e2, show f + 3 = (f + 2) + 1 from rfl, neighborLoopY,
      if_pos (by omega : nKey.y ≤ nKey.y + 1), hX nKey.y]
    cases h2 : rx nKey.y
    · simp
    · simp only [Bool.true_and]
      rw [e3, show f + 2 = (f + 1) + 1 from rfl, neighborLoopY,
        if_pos (le_refl (nKey.y + 1)), hX (nKey.y + 1)]
      cases h3 : rx (nKey.y + 1)
      · simp
      · rw [show (nKey.y + 1 + 1) % U16 = nKey.y + 2 by simp only [U16]; omega,
          neighborLoopY, if_neg (by omega : ¬ nKey.y + 2 ≤ nKey.y + 1)]

theorem neighborLoopZ_run3 (t : TTree) (mask : Nat) (nKey : OKey) (xf yf : Nat)
    (ry : Nat → Bool)
    (hY : ∀ kz, neighborLoopY t mask nKey kz xf yf ((nKey.y + U16 - 1) % U16) =
      some (ry kz))
    (hz1 : 1 ≤ nKey.z) (hz2 : nKey.z ≤ 65533) (fuel : Nat) (hf : 4 ≤ fuel) :
    neighborLoopZ t mask nKey xf yf fuel ((nKey.z + U16 - 1) % U16) =
      some (ry (nKey.z - 1) && (ry nKey.z && ry (nKey.z + 1))) := by
  obtain ⟨f, rfl⟩ : ∃ f, fuel = f + 4 := ⟨fuel - 4, by omega⟩
  have e1 : (nKey.z + U16 - 1) % U16 = nKey.z - 1 := by simp only [U16]; omega
  have e2 : (nKey.z - 1 + 1) % U16 = nKey.z := by simp only [U16]; omega
  have e3 : (nKey.z + 1) % U16 = nKey.z + 1 := by simp only [U16]; omega
  rw [e1, show f + 4 = (f + 3) + 1 from rfl, neighborLoopZ,
    if_pos (by omega : nKey.z - 1 ≤ nKey.z + 1), hY (nKey.z - 1)]
  cases h1 : ry (nKey.z - 1)
  · simp
  · simp only [Bool.true_and]
    rw [e2, show f + 3 = (f + 2) + 1 from rfl, neighborLoopZ,
      if_pos (by omega : nKey.z ≤ nKey.z + 1), hY nKey.z]
    cases h2 : ry nKey.z
    · simp
    · simp only [Bool.true_and]
      rw [e3, show f + 2 = (f + 1) + 1 from rfl, neighborLoopZ,
        if_pos (le_refl (nKey.z + 1)), hY (nKey.z + 1)]
      cases h3 : ry (nKey.z + 1)
      · simp
      · rw [show (nKey.z + 1 + 1) % U16 = nKey.z + 2 by simp only [U16]; omega,
          neighborLoopZ, if_neg (by omega : ¬ nKey.z + 2 ≤ nKey.z + 1)]

/-- Interior characterization: with every coordinate of the voxel's key in
`[1, 65533]` the C++ triple loop terminates and computes exactly the
conjunction of the 26 stencil probes. -/
theorem allNeighborsFnd_char (t : TTree) (mask : Nat) (nKey : OKey)
    (hx1 : 1 ≤ nKey.x) (hx2 : nKey.x ≤ 65533)
    (hy1 : 1 ≤ nKey.y) (hy2 : nKey.y ≤ 65533)
    (hz1 : 1 ≤ nKey.z) (hz2 : nKey.z ≤ 65533) :
    allNeighborsFnd t mask nKey = some (probesAll t mask nKey) := by
  unfold allNeighborsFnd
  rw [neighborLoopZ_run3 t mask nKey (U16 + 2) (U16 + 2)
    (fun kz => probesPlane t mask nKey kz) ?_ hz1 hz2 _ (by simp only [U16]; omega)]
  · rfl
  · intro kz
    rw [neighborLoopY_run3 t mask nKey kz (U16 + 2)
      (fun ky => probesRow t mask nKey ky kz) ?_ hy1 hy2 _ (by simp only [U16]; omega)]
    · rfl
    · intro ky
      exact neighborLoopX_run3 t mask nKey kz ky hx1 hx2 _ (by simp only [U16]; omega)

/-- Zero-coordinate characterization: when `nKey.x = 0` (and the other two
coordinates are interior) the `key[0]` loop body never runs, so the triple
loop exits with `allNeighborsFound` still true and performs no tree lookup at
all. -/
theorem allNeighborsFnd_x0 (t : TTree) (mask : Nat) (nKey : OKey)
    (hx : nKey.x = 0)
    (hy1 : 1 ≤ nKey.y) (hy2 : nKey.y ≤ 65533)
    (hz1 : 1 ≤ nKey.z) (hz2 : nKey.z ≤ 65533) :
    allNeighborsFnd t mask nKey = some true := by
  unfold allNeighborsFnd
  rw [neighborLoopZ_run3 t mask nKey (U16 + 2) (U16 + 2) (fun _ => true) ?_ hz1 hz2 _
    (by simp only [U16]; omega)]
  · simp
  · intro kz
    rw [neighborLoopY_run3 t mask nKey kz (U16 + 2) (fun _ => true) ?_ hy1 hy2 _
      (by simp only [U16]; omega)]
    · simp
    · intro ky
      exact neighborLoopX_zero t mask nKey kz ky hx _ (by simp only [U16]; omega)

theorem rootKey_centerOK : centerOK rootKey 0 := by
  refine ⟨⟨?_, ?_⟩, ⟨?_, ?_⟩, ⟨?_, ?_⟩⟩ <;> simp [rootKey, halfAt, U16]

theorem centerAx_child (d : Nat) (hd : d < 16) (c b : Nat) (hb : b ≤ 1)
    (hc : centerAx c d) : centerAx (childKeyCoord c b (halfAt (d + 1))) (d + 1) := by
  unfold centerAx childKeyCoord halfAt U16 at *
  interval_cases d <;> interval_cases b <;> simp_all <;> omega

theorem inSpanAx_child (d : Nat) (hd : d < 16) (c b v : Nat) (hb : b ≤ 1)
    (hc : centerAx c d)
    (hv : inSpanAx v (childKeyCoord c b (halfAt (d + 1))) (d + 1)) :
    inSpanAx v c d := by
  unfold centerAx inSpanAx childKeyCoord halfAt U16 at *
  interval_cases d <;> interval_cases b <;> simp_all <;> omega

theorem bit_of_child_span (d : Nat) (hd : d < 16) (c b v : Nat) (hb : b ≤ 1)
    (hc : centerAx c d)
    (hv : inSpanAx v (childKeyCoord c b (halfAt (d + 1))) (d + 1)) :
    v >>> (15 - d) % 2 = b := by
  unfold centerAx inSpanAx childKeyCoord halfAt U16 at *
  simp only [Nat.shiftRight_eq_div_pow] at *
  interval_cases d <;> interval_cases b <;> simp_all <;> omega

/-- The center coordinate of a node lies in its own span. -/
theorem centerAx_inSpanAx (c : Nat) (d : Nat) (hc : centerAx c d) :
    inSpanAx c c d := by
  unfold centerAx inSpanAx halfAt U16 at *
  rcases hc with ⟨h1, h2⟩
  by_cases hd : d < 16
  · have := h2 hd
    simp only [if_pos hd]
    interval_cases d <;> simp_all
  · simp [hd]

/-- A node with `hasChildren = false` has no child at any position. -/
theorem TNode.child_eq_none (n : TNode) (h : n.hasChildren = false) (pos : Nat) :
    n.child pos = none := by
  cases n with
  | mk o p f c0 c1 c2 c3 c4 c5 c6 c7 =>
    have hnone : ∀ (w : Option TNode), w.isSome = false → w = none := by
      intro w hw
      cases w
      · rfl
      · simp at hw
    simp only [TNode.hasChildren, TNode.child, Bool.or_eq_false_iff] at h
    obtain ⟨⟨⟨⟨⟨⟨⟨h0, h1⟩, h2⟩, h3⟩, h4⟩, h5⟩, h6⟩, h7⟩ := h
    have e0 := hnone _ h0
    have e1 := hnone _ h1
    have e2 := hnone _ h2
    have e3 := hnone _ h3
    have e4 := hnone _ h4
    have e5 := hnone _ h5
    have e6 := hnone _ h6
    have e7 := hnone _ h7
    subst e0 e1 e2 e3 e4 e5 e6 e7
    rcases pos with _|_|_|_|_|_|_|_|pos <;> rfl

/-- `search` stops at a childless node no matter how many steps remain. -/
theorem searchSteps_childless (steps stop : Nat) (node : TNode) (key : OKey)
    (h : node.hasChildren = false) : searchSteps steps stop node key = some node := by
  cases steps with
  | zero => rfl
  | succ s =>
    rw [searchSteps, TNode.child_eq_none node h, h]
    simp

/-- Center keys produced by the traversal satisfy the shape invariant, and the
visited depth stays between the start depth and the cap. -/
theorem leavesFrom_centerOK : ∀ (gas : Nat) (node : TNode) (ckey : OKey) (d0 : Nat),
    centerOK ckey d0 → d0 + gas ≤ 16 →
    ∀ kc d nd, (kc, d, nd) ∈ leavesFrom gas node ckey d0 →
    centerOK kc d ∧ d0 ≤ d ∧ d ≤ d0 + gas := by
  intro gas
  induction gas with
  | zero =>
    intro node ckey d0 hck _ kc d nd hmem
    simp only [leavesFrom, List.mem_singleton, Prod.mk.injEq] at hmem
    obtain ⟨rfl, rfl, rfl⟩ := hmem
    exact ⟨hck, le_refl _, by omega⟩
  | succ gas ih =>
    intro node ckey d0 hck hd0 kc d nd hmem
    rw [leavesFrom] at hmem
    by_cases hch : node.hasChildren = false
    · simp only [if_pos hch, List.mem_singleton, Prod.mk.injEq] at hmem
      obtain ⟨rfl, rfl, rfl⟩ := hmem
      exact ⟨hck, le_refl _, by omega⟩
    · simp only [if_neg hch, List.mem_flatMap, List.mem_range] at hmem
      obtain ⟨pos, hpos, hmem2⟩ := hmem
      rcases hchild : node.child pos with _ | c
      · rw [hchild] at hmem2; simp at hmem2
      · rw [hchild] at hmem2
        have hck' : centerOK (computeChildKey pos (halfAt (d0 + 1)) ckey) (d0 + 1) :=
          ⟨centerAx_child d0 (by omega) ckey.x (pos % 2) (by omega) hck.1,
           centerAx_child d0 (by omega) ckey.y (pos / 2 % 2) (by omega) hck.2.1,
           centerAx_child d0 (by omega) ckey.z (pos / 4 % 2) (by omega) hck.2.2⟩
        obtain ⟨h1, h2, h3⟩ := ih c _ (d0 + 1) hck' (by omega) kc d nd hmem2
        exact ⟨h1, by omega, by omega⟩

/-- The span of a traversed voxel is contained in the span of the subtree's
own root node. -/
theorem leavesFrom_span : ∀ (gas : Nat) (node : TNode) (ckey : OKey) (d0 : Nat),
    centerOK ckey d0 → d0 + gas ≤ 16 →
    ∀ kc d nd, (kc, d, nd) ∈ leavesFrom gas node ckey d0 →
    ∀ v, inSpanK v kc d → inSpanK v ckey d0 := by
  intro gas
  induction gas with
  | zero =>
    intro node ckey d0 _ _ kc d nd hmem v hv
    simp only [leavesFrom, List.mem_singleton, Prod.mk.injEq] at hmem
    obtain ⟨rfl, rfl, rfl⟩ := hmem
    exact hv
  | succ gas ih =>
    intro node ckey d0 hck hd0 kc d nd hmem v hv
    rw [leavesFrom] at hmem
    by_cases hch : node.hasChildren = false
    · simp only [if_pos hch, List.mem_singleton, Prod.mk.injEq] at hmem
      obtain ⟨rfl, rfl, rfl⟩ := hmem
      exact hv
    · simp only [if_neg hch, List.mem_flatMap, List.mem_range] at hmem
      obtain ⟨pos, hpos, hmem2⟩ := hmem
      rcases hchild : node.child pos with _ | c
      · rw [hchild] at hmem2; simp at hmem2
      · rw [hchild] at hmem2
        have hck' : centerOK (computeChildKey pos (halfAt (d0 + 1)) ckey) (d0 + 1) :=
          ⟨centerAx_child d0 (by omega) ckey.x (pos % 2) (by omega) hck.1,
           centerAx_child d0 (by omega) ckey.y (pos / 2 % 2) (by omega) hck.2.1,
           centerAx_child d0 (by omega) ckey.z (pos / 4 % 2) (by omega) hck.2.2⟩
        have hvchild := ih c _ (d0 + 1) hck' (by omega) kc d nd hmem2 v hv
        exact
          ⟨inSpanAx_child d0 (by omega) ckey.x (pos % 2) v.x (by omega) hck.1 hvchild.1,
           inSpanAx_child d0 (by omega) ckey.y (pos / 2 % 2) v.y (by omega) hck.2.1 hvchild.2.1,
           inSpanAx_child d0 (by omega) ckey.z (pos / 4 % 2) v.z (by omega) hck.2.2 hvchild.2.2⟩

/-- Search-self: a full-depth `search` with any key inside the span of a
traversed childless voxel returns exactly that voxel's node. -/
theorem searchSteps_self : ∀ (gas : Nat) (node : TNode) (ckey : OKey) (d0 : Nat),
    centerOK ckey d0 → d0 + gas ≤ 16 →
    ∀ kc d nd, (kc, d, nd) ∈ leavesFrom gas node ckey d0 →
    nd.hasChildren = false →
    ∀ v, inSpanK v kc d → searchSteps (16 - d0) 0 node v = some nd := by
  intro gas
  induction gas with
  | zero =>
    intro node ckey d0 _ _ kc d nd hmem hleaf v _
    simp only [leavesFrom, List.mem_singleton, Prod.mk.injEq] at hmem
    obtain ⟨rfl, rfl, rfl⟩ := hmem
    exact searchSteps_childless _ _ _ _ hleaf
  | succ gas ih =>
    intro node ckey d0 hck hd0 kc d nd hmem hleaf v hv
    rw [leavesFrom] at hmem
    by_cases hch : node.hasChildren = false
    · simp only [if_pos hch, List.mem_singleton, Prod.mk.injEq] at hmem
      obtain ⟨rfl, rfl, rfl⟩ := hmem
      exact searchSteps_childless _ _ _ _ hleaf
    · simp only [if_neg hch, List.mem_flatMap, List.mem_range] at hmem
      obtain ⟨pos, hpos, hmem2⟩ := hmem
      rcases hchild : node.child pos with _ | c
      · rw [hchild] at hmem2; simp at hmem2
      · rw [hchild] at hmem2
        have hck' : centerOK (computeChildKey pos (halfAt (d0 + 1)) ckey) (d0 + 1) :=
          ⟨centerAx_child d0 (by omega) ckey.x (pos % 2) (by omega) hck.1,
           centerAx_child d0 (by omega) ckey.y (pos / 2 % 2) (by omega) hck.2.1,
           centerAx_child d0 (by omega) ckey.z (pos / 4 % 2) (by omega) hck.2.2⟩
        have hvchild : inSpanK v (computeChildKey pos (halfAt (d0 + 1)) ckey) (d0 + 1) :=
          leavesFrom_span gas c _ (d0 + 1) hck' (by omega) kc d nd hmem2 v hv
        have hbx := bit_of_child_span d0 (by omega) ckey.x (pos % 2) v.x (by omega)
          hck.1 hvchild.1
        have hby := bit_of_child_span d0 (by omega) ckey.y (pos / 2 % 2) v.y (by omega)
          hck.2.1 hvchild.2.1
        have hbz := bit_of_child_span d0 (by omega) ckey.z (pos / 4 % 2) v.z (by omega)
          hck.2.2 hvchild.2.2
        have hidx : computeChildIdx v (15 - d0) = pos := by
          unfold computeChildIdx
          rw [hbx, hby, hbz]
          omega
        have hidx2 : computeChildIdx v (16 - (d0 + 1)) = pos := by
          rw [show 16 - (d0 + 1) = 15 - d0 from by omega]
          exact hidx
        have hstep : 16 - d0 = (16 - (d0 + 1)) + 1 := by omega
        rw [hstep, searchSteps, Nat.zero_add, hidx2, hchild]
        exact ih c _ (d0 + 1) hck' (by omega) kc d nd hmem2 hleaf v hv

/-- Any coordinate within distance 1 of a center coordinate at depth `d ≤ 14`
stays inside the node's own span. -/
theorem inSpanAx_pm1 (c : Nat) (d : Nat) (hd : d ≤ 14) (hc : centerAx c d) (v : Nat)
    (hv1 : c - 1 ≤ v) (hv2 : v ≤ c + 1) : inSpanAx v c d := by
  unfold centerAx inSpanAx halfAt U16 at *
  interval_cases d <;> simp_all <;> omega

/-- A center coordinate at depth `d ≤ 14` is at least 2. -/
theorem centerAx_lower (c : Nat) (d : Nat) (hd : d ≤ 14) (hc : centerAx c d) : 2 ≤ c := by
  unfold centerAx halfAt U16 at *
  interval_cases d <;> simp_all <;> omega

/-- A voxel the traversal yields strictly above the depth cap is a leaf. -/
theorem leavesFrom_childless : ∀ (gas : Nat) (node : TNode) (ckey : OKey) (d0 : Nat),
    ∀ kc d nd, (kc, d, nd) ∈ leavesFrom gas node ckey d0 → d < d0 + gas →
    nd.hasChildren = false := by
  intro gas
  induction gas with
  | zero =>
    intro node ckey d0 kc d nd hmem hd
    simp only [leavesFrom, List.mem_singleton, Prod.mk.injEq] at hmem
    obtain ⟨rfl, rfl, rfl⟩ := hmem
    omega
  | succ gas ih =>
    intro node ckey d0 kc d nd hmem hd
    rw [leavesFrom] at hmem
    by_cases hch : node.hasChildren = false
    · simp only [if_pos hch, List.mem_singleton, Prod.mk.injEq] at hmem
      obtain ⟨rfl, rfl, rfl⟩ := hmem
      exact hch
    · simp only [if_neg hch, List.mem_flatMap, List.mem_range] at hmem
      obtain ⟨pos, hpos, hmem2⟩ := hmem
      rcases hchild : node.child pos with _ | c
      · rw [hchild] at hmem2; simp at hmem2
      · rw [hchild] at hmem2
        exact ih c _ (d0 + 1) kc d nd hmem2 (by omega)

/-- Tree-level search-self: a full-depth `search` at any key within distance 1
(per axis) of the center key of a traversed leaf at depth `d ≤ 14` returns the
leaf itself — the probes of the visibility stencil never reach outside such a
voxel. -/
theorem treeSearch_self (t : TTree) (r : TNode) (maxD : Nat) (kc : OKey)
    (d : Nat) (nd : TNode)
    (hr : t.root = some r) (hmaxD : maxD ≤ 16)
    (hmem : (kc, d, nd) ∈ leavesFrom maxD r rootKey 0)
    (hleaf : nd.hasChildren = false) (hd14 : d ≤ 14)
    (v : OKey)
    (hvx1 : kc.x - 1 ≤ v.x) (hvx2 : v.x ≤ kc.x + 1)
    (hvy1 : kc.y - 1 ≤ v.y) (hvy2 : v.y ≤ kc.y + 1)
    (hvz1 : kc.z - 1 ≤ v.z) (hvz2 : v.z ≤ kc.z + 1) :
    t.search v = some nd := by
  have hck := leavesFrom_centerOK maxD r rootKey 0 rootKey_centerOK (by omega) kc d nd hmem
  have hspan : inSpanK v kc d :=
    ⟨inSpanAx_pm1 kc.x d hd14 hck.1.1 v.x hvx1 hvx2,
     inSpanAx_pm1 kc.y d hd14 hck.1.2.1 v.y hvy1 hvy2,
     inSpanAx_pm1 kc.z d hd14 hck.1.2.2 v.z hvz1 hvz2⟩
  have hs := searchSteps_self maxD r rootKey 0 rootKey_centerOK (by omega) kc d nd hmem
    hleaf v hspan
  unfold TTree.search
  rw [hr]
  exact hs

/-- If every cell of the 3x3x3 stencil passes the neighbor test, the full
probe conjunction is true. -/
theorem probesAll_of_cells (t : TTree) (mask : Nat) (nKey : OKey)
    (h : ∀ kx ky kz, nKey.x - 1 ≤ kx → kx ≤ nKey.x + 1 → nKey.y - 1 ≤ ky →
      ky ≤ nKey.y + 1 → nKey.z - 1 ≤ kz → kz ≤ nKey.z + 1 →
      neighborOk t mask nKey kx ky kz = true) :
    probesAll t mask nKey = true := by
  unfold probesAll probesPlane probesRow
  rw [h (nKey.x - 1) (nKey.y - 1) (nKey.z - 1) (by omega) (by omega) (by omega) (by omega) (by omega)
    (by omega)]
  rw [h (nKey.x) (nKey.y - 1) (nKey.z - 1) (by omega) (by omega) (by omega) (by omega) (by omega)
    (by omega)]
  rw [h (nKey.x + 1) (nKey.y - 1) (nKey.z - 1) (by omega) (by omega) (by omega) (by omega) (by omega)
    (by omega)]
  rw [h (nKey.x - 1) (nKey.y) (nKey.z - 1) (by omega) (by omega) (by omega) (by omega) (by omega)
    (by omega)]
  rw [h (nKey.x) (nKey.y) (nKey.z - 1) (by omega) (by omega) (by omega) (by omega) (by omega)
    (by omega)]
  rw [h (nKey.x + 1) (nKey.y) (nKey.z - 1) (by omega) (by omega) (by omega) (by omega) (by omega)
    (by omega)]
  rw [h (nKey.x - 1) (nKey.y + 1) (nKey.z - 1) (by omega) (by omega) (by omega) (by omega) (by omega)
    (by omega)]
  rw [h (nKey.x) (nKey.y + 1) (nKey.z - 1) (by omega) (by omega) (by omega) (by omega) (by omega)
    (by omega)]
  rw [h (nKey.x + 1) (nKey.y + 1) (nKey.z - 1) (by omega) (by omega) (by omega) (by omega) (by omega)
    (by omega)]
  rw [h (nKey.x - 1) (nKey.y - 1) (nKey.z) (by omega) (by omega) (by omega) (by omega) (by omega)
    (by omega)]
  rw [h (nKey.x) (nKey.y - 1) (nKey.z) (by omega) (by omega) (by omega) (by omega) (by omega)
    (by omega)]
  rw [h (nKey.x + 1) (nKey.y - 1) (nKey.z) (by omega) (by omega) (by omega) (by omega) (by omega)
    (by omega)]
  rw [h (nKey.x - 1) (nKey.y) (nKey.z) (by omega) (by omega) (by omega) (by omega) (by omega)
    (by omega)]
  rw [h (nKey.x) (nKey.y) (nKey.z) (by omega) (by omega) (by omega) (by omega) (by omega)
    (by omega)]
  rw [h (nKey.x + 1) (nKey.y) (nKey.z) (by omega) (by omega) (by omega) (by omega) (by omega)
    (by omega)]
  rw [h (nKey.x - 1) (nKey.y + 1) (nKey.z) (by omega) (by omega) (by omega) (by omega) (by omega)
    (by omega)]
  rw [h (nKey.x) (nKey.y + 1) (nKey.z) (by omega) (by omega) (by omega) (by omega) (by omega)
    (by omega)]
  rw [h (nKey.x + 1) (nKey.y + 1) (nKey.z) (by omega) (by omega) (by omega) (by omega) (by omega)
    (by omega)]
  rw [h (nKey.x - 1) (nKey.y - 1) (nKey.z + 1) (by omega) (by omega) (by omega) (by omega) (by omega)
    (by omega)]
  rw [h (nKey.x) (nKey.y - 1) (nKey.z + 1) (by omega) (by omega) (by omega) (by omega) (by omega)
    (by omega)]
  rw [h (nKey.x + 1) (nKey.y - 1) (nKey.z + 1) (by omega) (by omega) (by omega) (by omega) (by omega)
    (by omega)]
  rw [h (nKey.x - 1) (nKey.y) (nKey.z + 1) (by omega) (by omega) (by omega) (by omega) (by omega)
    (by omega)]
  rw [h (nKey.x) (nKey.y) (nKey.z + 1) (by omega) (by omega) (by omega) (by omega) (by omega)
    (by omega)]
  rw [h (nKey.x + 1) (nKey.y) (nKey.z + 1) (by omega) (by omega) (by omega) (by omega) (by omega)
    (by omega)]
  rw [h (nKey.x - 1) (nKey.y + 1) (nKey.z + 1) (by omega) (by omega) (by omega) (by omega) (by omega)
    (by omega)]
  rw [h (nKey.x) (nKey.y + 1) (nKey.z + 1) (by omega) (by omega) (by omega) (by omega) (by omega)
    (by omega)]
  rw [h (nKey.x + 1) (nKey.y + 1) (nKey.z + 1) (by omega) (by omega) (by omega) (by omega) (by omega)
    (by omega)]
  rfl

/-- Visibility decision of a mask-matching voxel with an interior key: the
voxel is displayed iff some probe of the 26-cell stencil fails.  The depth of
the voxel plays no role. -/
theorem displayVoxel_char (t : TTree) (mask : Nat) (nKey : OKey) (nd : TNode)
    (hm : occInt nd &&& mask ≠ 0)
    (hx1 : 1 ≤ nKey.x) (hx2 : nKey.x ≤ 65533)
    (hy1 : 1 ≤ nKey.y) (hy2 : nKey.y ≤ 65533)
    (hz1 : 1 ≤ nKey.z) (hz2 : nKey.z ≤ 65533) :
    displayVoxel t mask nKey nd = some (!probesAll t mask nKey) := by
  unfold displayVoxel
  rw [if_pos hm, allNeighborsFnd_char t mask nKey hx1 hx2 hy1 hy2 hz1 hz2]
  rfl

/-- A mask-matching voxel that the traversal yields as a leaf at depth
`d ≤ 14` is never displayed, whatever else the tree contains: all 26 probes
of the stencil land inside the voxel itself and return its own node. -/
theorem coarseLeaf_notDisplayed (t : TTree) (r : TNode) (maxD : Nat) (kc : OKey)
    (d : Nat) (nd : TNode) (mask : Nat)
    (hr : t.root = some r) (hmaxD : maxD ≤ 16)
    (hmem : (kc, d, nd) ∈ leavesFrom maxD r rootKey 0)
    (hd : d < maxD) (hd14 : d ≤ 14)
    (hxu : kc.x ≤ 65533) (hyu : kc.y ≤ 65533) (hzu : kc.z ≤ 65533)
    (hm : occInt nd &&& mask ≠ 0) :
    displayVoxel t mask kc nd = some false := by
  have hleaf := leavesFrom_childless maxD r rootKey 0 kc d nd hmem (by omega)
  have hck := leavesFrom_centerOK maxD r rootKey 0 rootKey_centerOK (by omega) kc d nd hmem
  have hx1 : 1 ≤ kc.x := by have := centerAx_lower kc.x d hd14 hck.1.1; omega
  have hy1 : 1 ≤ kc.y := by have := centerAx_lower kc.y d hd14 hck.1.2.1; omega
  have hz1 : 1 ≤ kc.z := by have := centerAx_lower kc.z d hd14 hck.1.2.2; omega
  have hcells : ∀ kx ky kz, kc.x - 1 ≤ kx → kx ≤ kc.x + 1 → kc.y - 1 ≤ ky →
      ky ≤ kc.y + 1 → kc.z - 1 ≤ kz → kz ≤ kc.z + 1 →
      neighborOk t mask kc kx ky kz = true := by
    intro kx ky kz h1 h2 h3 h4 h5 h6
    unfold neighborOk
    by_cases heq : (OKey.mk kx ky kz) = kc
    · rw [if_pos heq]
    · rw [if_neg heq]
      unfold probeMatch
      rw [treeSearch_self t r maxD kc d nd hr hmaxD hmem hleaf hd14 ⟨kx, ky, kz⟩
        h1 h2 h3 h4 h5 h6]
      exact decide_eq_true hm
  rw [displayVoxel_char t mask kc nd hm hx1 hxu hy1 hyu hz1 hzu,
    probesAll_of_cells t mask kc hcells]
  rfl

theorem treeLeaves_tBlock : treeLeaves tBlock 16 = leavesBlock := rfl

theorem treeLeaves_tCoarse : treeLeaves tCoarse 16 = [(kCoarse, 14, occLeaf)] := rfl

theorem mem_leavesBlock : (kCenter, 16, occLeaf) ∈ leavesFrom 16 rBlock rootKey 0 := by
  rw [show leavesFrom 16 rBlock rootKey 0 = leavesBlock from rfl]
  simp [leavesBlock, kCenter]

theorem mem_leavesCoarse : (kCoarse, 14, occLeaf) ∈ leavesFrom 16 rCoarse rootKey 0 := by
  rw [show leavesFrom 16 rCoarse rootKey 0 = [(kCoarse, 14, occLeaf)] from rfl]
  simp

/-! ## Claim C1 -/

/-- C1, corrected.  The code has no leaf-forced visibility: an occupied voxel
reached by the traversal at the maximum configured depth (like any traversed
mask-matching voxel with an interior key) is emitted iff at least one of the
26 probes of the stencil — full-depth `search` calls at the voxel's center
key offset by -1/0/+1 per axis — finds no node or a node failing the
render-mode mask. -/
theorem claim_c1_amended (t : TTree) (r : TNode) (maxD : Nat) (kc : OKey) (d : Nat)
    (nd : TNode) (mask : Nat)
    (_hr : t.root = some r)
    (_hmem : (kc, d, nd) ∈ leavesFrom maxD r rootKey 0)
    (_hd : d = maxD)
    (hm : occInt nd &&& mask ≠ 0)
    (hx1 : 1 ≤ kc.x) (hx2 : kc.x ≤ 65533) (hy1 : 1 ≤ kc.y) (hy2 : kc.y ≤ 65533)
    (hz1 : 1 ≤ kc.z) (hz2 : kc.z ≤ 65533) :
    displayVoxel t mask kc nd = some (!probesAll t mask kc) :=
  displayVoxel_char t mask kc nd hm hx1 hx2 hy1 hy2 hz1 hz2

/-- C1, counterexample to the claim as stated: in `tBlock` the center voxel is
occupied, reached by the traversal at the maximum configured depth 16, yet its
visibility decision is false (all 26 neighbors are present and occupied). -/
theorem claim_c1_counterexample :
    (kCenter, 16, occLeaf) ∈ treeLeaves tBlock 16 ∧
    isNodeOccupied occLeaf = true ∧
    displayVoxel tBlock 2 kCenter occLeaf = some false := by
  refine ⟨mem_leavesBlock, rfl, ?_⟩
  rw [displayVoxel_char tBlock 2 kCenter occLeaf (by decide) (by decide) (by decide)
    (by decide) (by decide) (by decide) (by decide)]
  decide

/-- C1, witness for the amended claim at the center voxel of `tBlock`. -/
theorem claim_c1_witness :
    (kCenter, 16, occLeaf) ∈ leavesFrom 16 rBlock rootKey 0 ∧
    displayVoxel tBlock 2 kCenter occLeaf = some (!probesAll tBlock 2 kCenter) :=
  ⟨mem_leavesBlock,
   claim_c1_amended tBlock rBlock 16 kCenter 16 occLeaf 2 rfl mem_leavesBlock rfl
     (by decide) (by decide) (by decide) (by decide) (by decide) (by decide) (by decide)⟩

/-! ## Claim C2 -/

/-- C2, corrected.  Neighbor lookups are NOT performed at the voxel's own
depth: they are full-depth `search` calls at the center key offset by at most
1 per axis.  For a traversed leaf at depth `d ≤ maxD - 2` (i.e. `d ≤ 14` when
the cap is 16) every such probe lands inside the voxel's own span and returns
the voxel's own node — never a same-depth neighbor. -/
theorem claim_c2_amended (t : TTree) (r : TNode) (maxD : Nat) (kc : OKey) (d : Nat)
    (nd : TNode) (kx ky kz : Nat)
    (hr : t.root = some r) (hmaxD : maxD ≤ 16)
    (hmem : (kc, d, nd) ∈ leavesFrom maxD r rootKey 0)
    (hd : d < maxD) (hd14 : d ≤ 14)
    (hvx1 : kc.x - 1 ≤ kx) (hvx2 : kx ≤ kc.x + 1)
    (hvy1 : kc.y - 1 ≤ ky) (hvy2 : ky ≤ kc.y + 1)
    (hvz1 : kc.z - 1 ≤ kz) (hvz2 : kz ≤ kc.z + 1) :
    t.search ⟨kx, ky, kz⟩ = some nd :=
  treeSearch_self t r maxD kc d nd hr hmaxD hmem
    (leavesFrom_childless maxD r rootKey 0 kc d nd hmem (by omega)) hd14
    ⟨kx, ky, kz⟩ hvx1 hvx2 hvy1 hvy2 hvz1 hvz2

/-- C2, counterexample to the claim as stated: the isolated coarse voxel of
`tCoarse` (depth 14, no neighbor anywhere in the tree) would be visible under
the spec's same-depth lookup semantics, but the code's native-resolution
probes make it invisible. -/
theorem claim_c2_counterexample :
    (kCoarse, 14, occLeaf) ∈ treeLeaves tCoarse 16 ∧
    displayVoxelSpecSameDepth tCoarse 2 kCoarse 14 = true ∧
    displayVoxel tCoarse 2 kCoarse occLeaf = some false := by
  refine ⟨?_, by decide, ?_⟩
  · rw [treeLeaves_tCoarse]; simp
  · exact coarseLeaf_notDisplayed tCoarse rCoarse 16 kCoarse 14 occLeaf 2 rfl (by omega)
      mem_leavesCoarse (by omega) (by omega) (by decide) (by decide) (by decide) (by decide)

/-- C2, witness for the amended claim: a probe one cell to the right of the
coarse voxel's center still returns the coarse voxel itself. -/
theorem claim_c2_witness :
    (kCoarse, 14, occLeaf) ∈ leavesFrom 16 rCoarse rootKey 0 ∧
    tCoarse.search ⟨103, 102, 101⟩ = some occLeaf :=
  ⟨mem_leavesCoarse,
   claim_c2_amended tCoarse rCoarse 16 kCoarse 14 occLeaf 103 102 101 rfl (by omega)
     mem_leavesCoarse (by omega) (by omega) (by decide) (by decide) (by decide) (by decide)
     (by decide) (by decide)⟩

/-! ## Claim C3 -/

/-- C3, corrected.  The gap-forces-visible / full-enclosure-suppresses rule
does NOT hold with same-depth neighbor semantics for coarse voxels: a
traversed occupied mask-matching leaf at depth `d ≤ 14` (below the traversal
cap) is never displayed, regardless of which same-depth neighbors exist,
because all 26 probes resolve inside the voxel itself. -/
theorem claim_c3_amended (t : TTree) (r : TNode) (maxD : Nat) (kc : OKey) (d : Nat)
    (nd : TNode) (mask : Nat)
    (hr : t.root = some r) (hmaxD : maxD ≤ 16)
    (hmem : (kc, d, nd) ∈ leavesFrom maxD r rootKey 0)
    (hd : d < maxD) (hd14 : d ≤ 14)
    (hxu : kc.x ≤ 65533) (hyu : kc.y ≤ 65533) (hzu : kc.z ≤ 65533)
    (_hocc : isNodeOccupied nd = true) (hm : occInt nd &&& mask ≠ 0) :
    displayVoxel t mask kc nd = some false :=
  coarseLeaf_notDisplayed t r maxD kc d nd mask hr hmaxD hmem hd hd14 hxu hyu hzu hm

/-- C3, counterexample to the claim as stated: the coarse occupied voxel of
`tCoarse` has an absent same-depth neighbor (its +x neighbor cell at depth 14
holds no node), so the claim requires it to be visible; the code marks it not
visible. -/
theorem claim_c3_counterexample :
    (kCoarse, 14, occLeaf) ∈ treeLeaves tCoarse 16 ∧
    isNodeOccupied occLeaf = true ∧
    tCoarse.searchAtDepth ⟨106, 102, 102⟩ 14 = none ∧
    displayVoxel tCoarse 2 kCoarse occLeaf = some false := by
  refine ⟨?_, rfl, rfl, ?_⟩
  · rw [treeLeaves_tCoarse]; simp
  · exact coarseLeaf_notDisplayed tCoarse rCoarse 16 kCoarse 14 occLeaf 2 rfl (by omega)
      mem_leavesCoarse (by omega) (by omega) (by decide) (by decide) (by decide) (by decide)

/-- C3, witness for the amended claim at the coarse voxel of `tCoarse`. -/
theorem claim_c3_witness :
    (kCoarse, 14, occLeaf) ∈ leavesFrom 16 rCoarse rootKey 0 ∧
    displayVoxel tCoarse 2 kCoarse occLeaf = some false :=
  ⟨mem_leavesCoarse,
   claim_c3_amended tCoarse rCoarse 16 kCoarse 14 occLeaf 2 rfl (by omega)
     mem_leavesCoarse (by omega) (by omega) (by decide) (by decide) (by decide) rfl
     (by decide)⟩

/-! ## Claim C10 -/

/-- C10, corrected.  The start value of an axis loop is indeed computed in
wrapping 16-bit arithmetic (`0 - 1` becomes 65535), but the loop bound
`nKey + 1` is compared after promotion to `int`, so for a voxel with a zero
coordinate the wrapped start value 65535 immediately fails the bound and the
axis loop never runs: the voxel is suppressed without a single tree lookup,
and its visibility does not depend on the tree's contents at the wrapped
keys. -/
theorem claim_c10_amended (t : TTree) (mask : Nat) (nKey : OKey) (nd : TNode)
    (hx : nKey.x = 0)
    (hy1 : 1 ≤ nKey.y) (hy2 : nKey.y ≤ 65533)
    (hz1 : 1 ≤ nKey.z) (hz2 : nKey.z ≤ 65533)
    (hm : occInt nd &&& mask ≠ 0) :
    displayVoxel t mask nKey nd = some false := by
  unfold displayVoxel
  rw [if_pos hm, allNeighborsFnd_x0 t mask nKey hx hy1 hy2 hz1 hz2]
  rfl

/-- C10, counterexample to the claim as stated: `tEdge` and `tEdgeFull` differ
exactly in the tree contents at the wrapped-around keys `(65535, *, *)`
(absent in the former, occupied in the latter), yet the boundary voxel
`kEdge = (0,100,100)` has the same visibility decision — not visible — in
both.  Visibility does not depend on the wrapped keys; under the claim the
absent wrapped neighbor of `tEdge` would have forced visibility. -/
theorem claim_c10_counterexample :
    tEdge.search ⟨65535, 100, 100⟩ = none ∧
    tEdgeFull.search ⟨65535, 100, 100⟩ = some occLeaf ∧
    displayVoxel tEdge 2 kEdge occLeaf = some false ∧
    displayVoxel tEdgeFull 2 kEdge occLeaf = some false := by
  refine ⟨rfl, rfl, ?_, ?_⟩ <;>
  · unfold displayVoxel
    rw [if_pos (by decide), allNeighborsFnd_x0 _ 2 kEdge rfl (by decide) (by decide)
      (by decide) (by decide)]
    rfl

/-- C10, witness for the amended claim at the boundary voxel of `tEdge`. -/
theorem claim_c10_witness : displayVoxel tEdge 2 kEdge occLeaf = some false :=
  claim_c10_amended tEdge 2 kEdge occLeaf rfl (by decide) (by decide) (by decide)
    (by decide) (by decide)

/-- C4, code bug.  Draining a dirty buffer hits undefined behaviour at the
first empty level bucket — line 481 calls `new_points_[i].front()` on an empty
`std::vector` — although the spec requires an empty bucket to mean "nothing to
draw at this level".  With every bucket non-empty the same drain completes and
replaces the per-level clouds. -/
theorem claim_c4_bug :
    TextureGridDisplay.update stHole = .error () ∧
    TextureGridDisplay.update stFull =
      .ok { initState with clouds := List.replicate 16 [ptX] } :=
  ⟨rfl, rfl⟩

/-- C6, corrected.  `reset()` empties only the drawn per-level clouds and the
message counter; the pending and published point buffers, the dirty flag, and
the box sizes all survive a reset unchanged. -/
theorem claim_c6_amended (st : DState) :
    (TextureGridDisplay.reset st).clouds = st.clouds.map (fun _ => []) ∧
    (TextureGridDisplay.reset st).messagesReceived = 0 ∧
    (TextureGridDisplay.reset st).newPoints = st.newPoints ∧
    (TextureGridDisplay.reset st).newPointsReceived = st.newPointsReceived ∧
    (TextureGridDisplay.reset st).pointBuf = st.pointBuf ∧
    (TextureGridDisplay.reset st).boxSize = st.boxSize ∧
    (TextureGridDisplay.reset st).cloudDims = st.cloudDims :=
  ⟨rfl, rfl, rfl, rfl, rfl, rfl, rfl⟩

/-- C6, counterexample to the claim as stated: after `reset()` on a dirty
state the dirty flag is still set and level bucket 9 still holds the point
published before the reset, so the next drain re-draws it. -/
theorem claim_c6_counterexample :
    (TextureGridDisplay.reset stHole).newPointsReceived = true ∧
    (TextureGridDisplay.reset stHole).newPoints.getD 9 [] = [ptX] ∧
    ([ptX] : List RPoint) ≠ [] :=
  ⟨rfl, rfl, by simp⟩

/-- C7, confirmed.  When pose resolution fails, or the payload decodes to no
tree or to the wrong concrete type, the callback reports an error status under
the "Message" key and returns with every buffer — point buckets, box sizes,
pending points and the dirty flag — exactly as before the pass; only the
message counter advances. -/
theorem claim_c7_error_abort (st : DState) (cfg : Config) (accInit : ℚ) (msg : Msg)
    (h : msg.transformOK = false ∨ msg.decoded = none) :
    TextureGridDisplay.incomingMessageCallback st cfg accInit msg =
      some ({ st with messagesReceived := st.messagesReceived + 1 },
        [(StatusLevel.ok, "Messages"), (StatusLevel.error, "Message")]) ∧
    ({ st with messagesReceived := st.messagesReceived + 1 } : DState).pointBuf
      = st.pointBuf ∧
    ({ st with messagesReceived := st.messagesReceived + 1 } : DState).newPoints
      = st.newPoints ∧
    ({ st with messagesReceived := st.messagesReceived + 1 } : DState).boxSize
      = st.boxSize ∧
    ({ st with messagesReceived := st.messagesReceived + 1 } : DState).newPointsReceived
      = st.newPointsReceived := by
  refine ⟨?_, rfl, rfl, rfl, rfl⟩
  obtain ⟨tok, dec⟩ := msg
  rcases h with h | h
  · simp only at h
    subst h
    rfl
  · simp only at h
    subst h
    cases tok <;> rfl

/-- C7, witness: a message whose frame transform failed. -/
theorem claim_c7_witness :
    TextureGridDisplay.incomingMessageCallback initState cfgProb 0 ⟨false, none⟩ =
      some ({ initState with messagesReceived := initState.messagesReceived + 1 },
        [(StatusLevel.ok, "Messages"), (StatusLevel.error, "Message")]) ∧
    ({ initState with messagesReceived := initState.messagesReceived + 1 } : DState).pointBuf
      = initState.pointBuf ∧
    ({ initState with messagesReceived := initState.messagesReceived + 1 } : DState).newPoints
      = initState.newPoints ∧
    ({ initState with messagesReceived := initState.messagesReceived + 1 } : DState).boxSize
      = initState.boxSize ∧
    ({ initState with messagesReceived := initState.messagesReceived + 1 } : DState).newPointsReceived
      = initState.newPointsReceived :=
  claim_c7_error_abort initState cfgProb 0 ⟨false, none⟩ (Or.inl rfl)

/-- C8, code bug.  The texture intensity of the claim is computed only if the
accumulator `cell_texture` (declared uninitialized at line 391 and read by
`+=` at line 400) happens to start at 0: with indeterminate start value 1 the
result for a voxel with one observed face is `(1 + 1*1)/(1*255) = 2/255`
instead of the claimed `1/255`.  The zero-observation branch does satisfy the
claim for every start value, since line 404 overwrites the accumulator. -/
theorem claim_c8_bug :
    cellTexture texNode 0 = specTexIntensity texNode ∧
    cellTexture texNode 1 ≠ specTexIntensity texNode ∧
    (∀ accInit : ℚ, cellTexture zeroObsNode accInit = 0) := by
  refine ⟨?_, ?_, ?_⟩
  · norm_num [cellTexture, texAccum, specTexIntensity, faceValue, faceObs, texNode,
      TNode.faces, show List.range 6 = [0, 1, 2, 3, 4, 5] from rfl, List.getD]
  · norm_num [cellTexture, texAccum, specTexIntensity, faceValue, faceObs, texNode,
      TNode.faces, show List.range 6 = [0, 1, 2, 3, 4, 5] from rfl, List.getD]
  · intro accInit
    norm_num [cellTexture, texAccum, faceValue, faceObs, zeroObsNode,
      TNode.faces, show List.range 6 = [0, 1, 2, 3, 4, 5] from rfl, List.getD]

/-! ## Claim C5 -/

/-- C5, corrected.  On a successfully transformed and decoded message the
publish block of lines 431-440 is guarded by `if (pointCount)`: when the pass
produced at least one point, `new_points_` receives exactly the pass's buckets
(by swap, so `point_buf_` gets the previous pending generation) and the dirty
flag is raised; when the pass produced zero points, `new_points_` and the
dirty flag are left untouched and only `point_buf_` and `box_size_` are
rewritten. -/
theorem claim_c5_amended (st : DState) (cfg : Config) (accInit : ℚ) (msg : Msg)
    (tree : TTree) (buckets : List (List RPoint))
    (ht : msg.transformOK = true) (hd : msg.decoded = some tree)
    (hf : fillBuckets cfg accInit tree = some buckets) :
    (bucketsCount buckets ≠ 0 →
      TextureGridDisplay.incomingMessageCallback st cfg accInit msg =
        some ({ st with
          messagesReceived := st.messagesReceived + 1,
          boxSize := (List.range 16).map fun i => getNodeSize tree.resolution (i + 1),
          pointBuf := st.newPoints,
          newPoints := buckets,
          newPointsReceived := true }, [(StatusLevel.ok, "Messages")])) ∧
    (bucketsCount buckets = 0 →
      TextureGridDisplay.incomingMessageCallback st cfg accInit msg =
        some ({ st with
          messagesReceived := st.messagesReceived + 1,
          boxSize := (List.range 16).map fun i => getNodeSize tree.resolution (i + 1),
          pointBuf := buckets }, [(StatusLevel.ok, "Messages")])) := by
  obtain ⟨tok, dec⟩ := msg
  simp only at ht hd
  subst ht
  subst hd
  obtain ⟨np, mr, bs, cl, cd, pb, npts⟩ := st
  constructor <;> intro hc <;>
    simp [TextureGridDisplay.incomingMessageCallback, hf, hc]

/-- C5, counterexample to the claim as stated: a successfully decoded and
transformed message whose tree yields zero visible points (its only node is
unoccupied) leaves the pending buffer holding the PREVIOUS pass's point and
the dirty flag still false — the claim demands the buffer hold exactly the
(empty) point set of this pass with the dirty flag set. -/
theorem claim_c5_counterexample :
    (TextureGridDisplay.incomingMessageCallback stPend cfgProb 0 ⟨true, some tFree⟩).map
        (fun r => (r.1.newPointsReceived, r.1.newPoints)) =
      some (false, stPend.newPoints) := rfl

theorem fillBuckets_tOne : fillBuckets cfgProb 0 tOne = some bucketsOne := by
  have hdisp : displayVoxel tOne 2 ⟨100, 100, 100⟩ occLeaf = some true := by
    rw [displayVoxel_char tOne 2 ⟨100, 100, 100⟩ occLeaf (by decide) (by decide) (by decide)
      (by decide) (by decide) (by decide) (by decide)]
    decide
  rw [show fillBuckets cfgProb 0 tOne =
      (match displayVoxel tOne cfgProb.mask ⟨100, 100, 100⟩ occLeaf with
        | none => none
        | some true => some (bucketsPush (List.replicate 16 []) 15
            (mkPoint cfgProb 0 tOne ⟨100, 100, 100⟩ 16 occLeaf))
        | some false => some (List.replicate 16 [])) from rfl]
  rw [show cfgProb.mask = 2 from rfl, hdisp]
  rfl

/-- C5, witness for the amended claim: the one-voxel pass publishes its single
bucket wholesale and raises the dirty flag. -/
theorem claim_c5_witness :
    fillBuckets cfgProb 0 tOne = some bucketsOne ∧
    bucketsCount bucketsOne ≠ 0 ∧
    TextureGridDisplay.incomingMessageCallback initState cfgProb 0 ⟨true, some tOne⟩ =
      some ({ initState with
        messagesReceived := initState.messagesReceived + 1,
        boxSize := (List.range 16).map fun i => getNodeSize tOne.resolution (i + 1),
        pointBuf := initState.newPoints,
        newPoints := bucketsOne,
        newPointsReceived := true }, [(StatusLevel.ok, "Messages")]) :=
  ⟨fillBuckets_tOne, by decide,
   (claim_c5_amended initState cfgProb 0 ⟨true, some tOne⟩ tOne bucketsOne rfl rfl
     fillBuckets_tOne).1 (by decide)⟩

theorem setColor_eq_hueCore (zPos minZ maxZ colorFactor : ℚ) :
    setColor zPos minZ maxZ colorFactor =
      hueCore ((1 - min (max ((zPos - minZ) / (maxZ - minZ)) 0) 1) * colorFactor) := rfl

theorem hueSelect_mem (i : ℤ) (hi0 : 0 ≤ i) (hi5 : i ≤ 5) (nv : ℚ)
    (hn0 : 0 ≤ nv) (hn1 : nv ≤ 1) :
    0 ≤ (hueSelect i 1 nv 0).1 ∧ (hueSelect i 1 nv 0).1 ≤ 1 ∧
    0 ≤ (hueSelect i 1 nv 0).2.1 ∧ (hueSelect i 1 nv 0).2.1 ≤ 1 ∧
    0 ≤ (hueSelect i 1 nv 0).2.2 ∧ (hueSelect i 1 nv 0).2.2 ≤ 1 := by
  interval_cases i <;> simp [hueSelect] <;> exact ⟨hn0, hn1⟩

theorem hueCore_mem (h0 : ℚ) :
    0 ≤ (hueCore h0).1 ∧ (hueCore h0).1 ≤ 1 ∧
    0 ≤ (hueCore h0).2.1 ∧ (hueCore h0).2.1 ≤ 1 ∧
    0 ≤ (hueCore h0).2.2 ∧ (hueCore h0).2.2 ≤ 1 := by
  have hfr0 : (0 : ℚ) ≤ h0 - ↑⌊h0⌋ := by
    have := Int.fract_nonneg h0
    rwa [Int.self_sub_floor]
  have hfr1 : h0 - (⌊h0⌋ : ℚ) < 1 := by
    have := Int.fract_lt_one h0
    rwa [Int.self_sub_floor]
  have hh0 : (0 : ℚ) ≤ (h0 - ↑⌊h0⌋) * 6 := by linarith
  have hh6 : (h0 - (⌊h0⌋ : ℚ)) * 6 < 6 := by linarith
  have hi0 : 0 ≤ ⌊(h0 - (⌊h0⌋ : ℚ)) * 6⌋ := Int.floor_nonneg.mpr hh0
  have hi5 : ⌊(h0 - (⌊h0⌋ : ℚ)) * 6⌋ ≤ 5 := by
    have : ⌊(h0 - (⌊h0⌋ : ℚ)) * 6⌋ < 6 := Int.floor_lt.mpr (by exact_mod_cast hh6)
    omega
  have hf00 : (0 : ℚ) ≤ (h0 - ↑⌊h0⌋) * 6 - ↑⌊(h0 - (⌊h0⌋ : ℚ)) * 6⌋ := by
    have := Int.fract_nonneg ((h0 - (⌊h0⌋ : ℚ)) * 6)
    rwa [Int.self_sub_floor]
  have hf01 : (h0 - (⌊h0⌋ : ℚ)) * 6 - ↑⌊(h0 - (⌊h0⌋ : ℚ)) * 6⌋ < 1 := by
    have := Int.fract_lt_one ((h0 - (⌊h0⌋ : ℚ)) * 6)
    rwa [Int.self_sub_floor]
  unfold hueCore
  simp only []
  set f : ℚ := if ⌊(h0 - (⌊h0⌋ : ℚ)) * 6⌋ % 2 = 0
    then 1 - ((h0 - (⌊h0⌋ : ℚ)) * 6 - ↑⌊(h0 - (⌊h0⌋ : ℚ)) * 6⌋)
    else (h0 - (⌊h0⌋ : ℚ)) * 6 - ↑⌊(h0 - (⌊h0⌋ : ℚ)) * 6⌋ with hf
  have hfb : 0 ≤ f ∧ f ≤ 1 := by
    rw [hf]
    by_cases hpar : ⌊(h0 - (⌊h0⌋ : ℚ)) * 6⌋ % 2 = 0
    · rw [if_pos hpar]
      constructor <;> linarith
    · rw [if_neg hpar]
      constructor <;> linarith
  rw [show (1 : ℚ) * (1 - 1 * f) = 1 - f by ring, show (1 : ℚ) * (1 - 1) = 0 by ring]
  exact hueSelect_mem _ hi0 hi5 (1 - f) (by linarith [hfb.2]) (by linarith [hfb.1])

/-- C9, confirmed (over exact rationals).  For every real-valued input — any
`z`, any min/max pair, any color factor in (0,1] — the height color map
returns an RGB triple with every component in [0,1]; and for every degenerate
sector index outside 0..6 the switch falls back to the fixed color
(1, 0.5, 0.5). -/
theorem claim_c9_total (zPos minZ maxZ colorFactor : ℚ) (j : ℤ) (v n m : ℚ)
    (_hcf1 : 0 < colorFactor) (_hcf2 : colorFactor ≤ 1) :
    (0 ≤ (setColor zPos minZ maxZ colorFactor).1 ∧
     (setColor zPos minZ maxZ colorFactor).1 ≤ 1 ∧
     0 ≤ (setColor zPos minZ maxZ colorFactor).2.1 ∧
     (setColor zPos minZ maxZ colorFactor).2.1 ≤ 1 ∧
     0 ≤ (setColor zPos minZ maxZ colorFactor).2.2 ∧
     (setColor zPos minZ maxZ colorFactor).2.2 ≤ 1) ∧
    ((j < 0 ∨ 6 < j) → hueSelect j v n m = (1, 1/2, 1/2)) := by
  constructor
  · rw [setColor_eq_hueCore]
    exact hueCore_mem _
  · intro hj
    unfold hueSelect
    rw [if_neg (by omega), if_neg (by omega), if_neg (by omega), if_neg (by omega),
      if_neg (by omega), if_neg (by omega)]

/-- C9, witness at an out-of-range height (z = 42 above maxZ = 10) and the
degenerate sector index 7. -/
theorem claim_c9_witness :
    (0 ≤ (setColor 42 0 10 1).1 ∧ (setColor 42 0 10 1).1 ≤ 1 ∧
     0 ≤ (setColor 42 0 10 1).2.1 ∧ (setColor 42 0 10 1).2.1 ≤ 1 ∧
     0 ≤ (setColor 42 0 10 1).2.2 ∧ (setColor 42 0 10 1).2.2 ≤ 1) ∧
    (((7 : ℤ) < 0 ∨ (6 : ℤ) < 7) → hueSelect 7 0 0 0 = (1, 1/2, 1/2)) :=
  claim_c9_total 42 0 10 1 7 0 0 0 (by norm_num) (le_refl 1)
